import Mathlib

/-!
Shallow embedding of the snapd quota-group control plane
(`overlord/servicestate/quota_control.go` and `overlord/servicestate/quotas.go`).

Go maps from group name to `*quota.Group` are modelled as association lists
(`List (String × Group)`); Go's in-place pointer mutation of map entries is
modelled by threading an explicit working map and re-reading current entry
values before each field mutation, which reproduces the aliasing behaviour of
the source.  Machine integers (`quantity.Size`, systemd versions) carry no
arithmetic in the modelled code paths, so they are embedded as `Nat`.
Collaborators that live outside this repository's sources (package `quota`'s
constructors and cross-reference resolution, `patchQuotas`, systemd calls, the
unit-sync layer) are modelled from the spec and marked as such in their doc
comments.
-/

namespace Snapd

/-- Quota group record, after `quota.Group` (spec section 3): name, parent
name (empty for top-level), child names, member snaps, and the memory limit
in bytes. -/
structure Group where
  name : String
  parentGroup : String
  subGroups : List String
  snaps : List String
  memoryLimit : Nat
deriving DecidableEq, Repr

/-- The persisted group set: Go `map[string]*quota.Group` as an association
list from group name to group. -/
abbrev GroupMap := List (String × Group)

/-- Upsert into the group map keyed by the group's name, replacing the
existing entry if present (Go map assignment `m[g.Name] = g`). -/
def insertGrp : GroupMap → Group → GroupMap
  | [], g => [(g.name, g)]
  | p :: rest, g => if p.1 == g.name then (g.name, g) :: rest else p :: insertGrp rest g

/-- A Go nil map and a non-nil map are distinguished with `Option`; `grpList`
is the view of either as a list of entries (lookups on a nil map behave like
lookups on an empty one). -/
def grpList (o : Option GroupMap) : GroupMap := o.getD []

/-- Lookup of a group by name in a possibly-nil map (Go `allGrps[name]`). -/
def lookupGrp (o : Option GroupMap) (n : String) : Option Group :=
  List.lookup n (grpList o)

/-- Link data of a group: everything cross-reference resolution inspects
(it never reads `snaps` or `memoryLimit`). -/
structure GroupLinks where
  name : String
  parentGroup : String
  subGroups : List String
deriving DecidableEq, Repr

/-- Projection of a group to its link data. -/
def Group.links (g : Group) : GroupLinks := ⟨g.name, g.parentGroup, g.subGroups⟩

/-- Link view of a whole group map. -/
def linksMap (m : GroupMap) : List (String × GroupLinks) :=
  m.map (fun p => (p.1, p.2.links))

/-- Keys of the association list are pairwise distinct (structural fact of a
Go map; part of what makes the persisted form well-formed). -/
def nodupKeysL : List (String × GroupLinks) → Bool
  | [] => true
  | p :: rest => !(rest.any (fun q => q.1 == p.1)) && nodupKeysL rest

/-- Walk the parent chain starting at name `n` (empty string terminates);
returns true when the chain reaches the top within the given fuel, so a
parent cycle or a dangling parent reference yields false. -/
def parentChainTerminates (m : List (String × GroupLinks)) : String → Nat → Bool
  | _, 0 => false
  | n, fuel + 1 =>
    if n == "" then true
    else match List.lookup n m with
      | none => false
      | some g => parentChainTerminates m g.parentGroup fuel

/-- Bidirectional link consistency (spec section 3 invariant 1): every entry
is keyed by its own name, every non-empty parent reference names an existing
group whose `SubGroups` lists the child, and every `SubGroups` entry names an
existing group whose `ParentGroup` points back. -/
def wellLinked (m : List (String × GroupLinks)) : Bool :=
  m.all (fun p =>
    p.2.name == p.1 &&
    (p.2.parentGroup == "" ||
      (match List.lookup p.2.parentGroup m with
       | some pg => pg.subGroups.contains p.1
       | none => false)) &&
    p.2.subGroups.all (fun c =>
      match List.lookup c m with
      | some cg => cg.parentGroup == p.1
      | none => false))

/-- Consistency of the link view: unique keys, mutual parent/child links, and
acyclic parent chains. -/
def crossRefsCore (m : List (String × GroupLinks)) : Bool :=
  nodupKeysL m && wellLinked m &&
    m.all (fun p => parentChainTerminates m p.2.parentGroup (m.length + 1))

/-- Modelled from the spec: cross-reference resolution (package `quota`, not
under src/) validates the bidirectional parent/child links of a loaded or
about-to-be-persisted group set and fails if the graph is inconsistent; it
only reads and completes link data, never the snap membership or limits. -/
def crossRefsOK (m : GroupMap) : Bool := crossRefsCore (linksMap m)

/-- Errors returned by the quota operations; constructors mirror the distinct
`fmt.Errorf` sites of the source. -/
inductive Err where
  | featureDisabled
  | systemdTooOld (current : Nat)
  | snapNotInstalled (snapName group : String)
  | snapAlreadyInGroup (snapName group inGroup : String)
  | groupExists (name : String)
  | groupNotFound (name : String)
  | parentNotFound (parent : String)
  | groupHasSubGroups
  | orphanWithoutParent
  | orphanAndNewParent
  | internalParentMissing (parent name : String)
  | inconsistentSet
  | invalidGroup
  | snapNotInGroup (snapName group : String)
deriving DecidableEq, Repr

/-- The slice of daemon state the quota subsystem touches: the persisted
`"quotas"` key (`none` models `state.ErrNoState`, i.e. the key was never
set), the set of installed snaps consulted through `snapstate.CurrentInfo`,
and the feature flag and systemd version consulted by
`quotaGroupsAvailable`. -/
structure StateS where
  quotas : Option GroupMap
  installedSnaps : List String
  featureQuotaGroups : Bool
  systemdVersion : Nat
deriving DecidableEq, Repr

/-- Record of one call to `ensureSnapServicesForGroup`: the group passed in,
the explicit extra snaps, and the reconciled service set the call iterates
over (`append(grp.Snaps, extraSnaps...)` in the source). -/
structure ReconcileCall where
  grp : Group
  extraSnaps : List String
  services : List String
deriving DecidableEq, Repr

/-- Outcome of one mutation operation: the daemon state after the call (equal
to the input state when nothing was persisted), the returned error if any,
and the reconciliation calls that were made. -/
structure OpOut where
  state : StateS
  err : Option Err
  reconcile : List ReconcileCall
deriving DecidableEq, Repr

/-- Load of the persisted group set (`AllQuotas` in quotas.go): an absent
`"quotas"` key (`state.ErrNoState`) yields a nil map with a nil error; a
present set is passed through cross-reference resolution
(`quota.CompleteCrossReferences`) and fails if inconsistent. -/
def AllQuotas (st : StateS) : Except Err (Option GroupMap) :=
  match st.quotas with
  | none => .ok none
  | some m => if crossRefsOK m then .ok (some m) else .error .inconsistentSet

/-- Lookup of a single group (`GetQuota` in quotas.go): a missing name yields
a nil group with a nil error. -/
def GetQuota (st : StateS) (name : String) : Except Err (Option Group) :=
  match AllQuotas st with
  | .error e => .error e
  | .ok allGrps => .ok (lookupGrp allGrps name)

/-- Modelled from the spec: the group constructor (`quota.NewGroup`, package
`quota`, not under src/) builds a top-level group after validating the name
is non-empty and the memory limit is a positive byte quantity (spec section
3: "MemoryLimit: positive byte quantity"). -/
def NewGroup (name : String) (memoryLimit : Nat) : Except Err Group :=
  if name == "" then .error .invalidGroup
  else if memoryLimit == 0 then .error .invalidGroup
  else .ok ⟨name, "", [], [], memoryLimit⟩

/-- Modelled from the spec: `parentGrp.NewSubGroup` (package `quota`, not
under src/) builds the child attached under the parent — the child's
`ParentGroup` is set and the parent's `SubGroups` gains the child's name
(spec section 4.1).  Returns the child together with the updated parent. -/
def NewSubGroup (parent : Group) (name : String) (memoryLimit : Nat) :
    Except Err (Group × Group) :=
  match NewGroup name memoryLimit with
  | .error e => .error e
  | .ok g =>
    .ok ({ g with parentGroup := parent.name },
         { parent with subGroups := parent.subGroups ++ [name] })

/-- Modelled from the spec: `patchQuotas` (servicestate, not under src/)
loads the current set, upserts the touched groups as one atomic patch,
validates the cross-reference invariants before persisting (spec section 3:
invariants "checked before persisting"), then writes the full set back and
returns it. -/
def patchQuotas (st : StateS) (grps : List Group) : Except Err (StateS × GroupMap) :=
  let merged := grps.foldl insertGrp (grpList st.quotas)
  if crossRefsOK merged then .ok ({ st with quotas := some merged }, merged)
  else .error .inconsistentSet

/-- Validation of snaps to be added to a group (`validateSnapForAddingToGroup`):
each snap must resolve via `snapstate.CurrentInfo` and must not already be a
member of any existing group.  Returns the first failure, if any. -/
def validateSnapForAddingToGroup (st : StateS) (snaps : List String)
    (group : String) (allGrps : Option GroupMap) : Option Err :=
  match snaps with
  | [] => none
  | s :: rest =>
    if !(st.installedSnaps.contains s) then some (.snapNotInstalled s group)
    else match (grpList allGrps).find? (fun q => q.2.snaps.contains s) with
      | some q => some (.snapAlreadyInGroup s group q.1)
      | none => validateSnapForAddingToGroup st rest group allGrps

/-- Availability gate (`quotaGroupsAvailable`): the experimental
quota-groups feature flag must be enabled and the systemd version must be at
least 205. -/
def quotaGroupsAvailable (st : StateS) : Option Err :=
  if !st.featureQuotaGroups then some .featureDisabled
  else if st.systemdVersion < 205 then some (.systemdTooOld st.systemdVersion)
  else none

/-- State-level model of `ensureSnapServicesForGroup`: it iterates over
`append(grp.Snaps, extraSnaps...)`, resolving each service through
`snapstate.CurrentInfo` (first unknown snap aborts with its error).  The
external unit-sync, slice-restart and service-restart effects are modelled
separately over an explicit event stream (see the reconciliation section
below); they do not read or write the persisted group set, so at state level
a call is recorded with the reconciled service set it operates on. -/
def ensureSnapServicesForGroup (st : StateS) (grp : Group)
    (_allGrps : GroupMap) (extraSnaps : List String) : Option Err × ReconcileCall :=
  let services := grp.snaps ++ extraSnaps
  (match services.find? (fun s => !(st.installedSnaps.contains s)) with
   | some s => some (.snapNotInstalled s grp.name)
   | none => none,
   ⟨grp, extraSnaps, services⟩)

/-- Tail of `CreateQuota` after the new group (and updated parent, if any)
have been built: persist them as one patch and run reconciliation for the
new group with no extra services. -/
def createFinish (st : StateS) (updatedGrps : List Group) (grp : Group) : OpOut :=
  match patchQuotas st updatedGrps with
  | .error e => ⟨st, some e, []⟩
  | .ok (st2, allGrps2) =>
    let r := ensureSnapServicesForGroup st2 grp allGrps2 []
    ⟨st2, r.1, [r.2]⟩

/-- Creation of a quota group (`CreateQuota`): gated on availability, the
name must be unused, the snaps must validate, and a non-empty parent must
exist; the new group (with the parent, if any) is persisted as one patch and
reconciliation runs for the new group with no extra services. -/
def CreateQuota (st : StateS) (name parentName : String) (snaps : List String)
    (memoryLimit : Nat) : OpOut :=
  match quotaGroupsAvailable st with
  | some e => ⟨st, some e, []⟩
  | none =>
  match AllQuotas st with
  | .error e => ⟨st, some e, []⟩
  | .ok allGrps =>
    if (lookupGrp allGrps name).isSome then ⟨st, some (.groupExists name), []⟩
    else match validateSnapForAddingToGroup st snaps name allGrps with
    | some e => ⟨st, some e, []⟩
    | none =>
      if parentName != "" then
        match lookupGrp allGrps parentName with
        | none => ⟨st, some (.parentNotFound parentName), []⟩
        | some parentGrp =>
          match NewSubGroup parentGrp name memoryLimit with
          | .error e => ⟨st, some e, []⟩
          | .ok (child, parent2) =>
            createFinish st [parent2, { child with snaps := snaps }]
              { child with snaps := snaps }
      else
        match NewGroup name memoryLimit with
        | .error e => ⟨st, some e, []⟩
        | .ok g =>
          createFinish st [{ g with snaps := snaps }] { g with snaps := snaps }

/-- Removal of a quota group (`RemoveQuota`): the group must exist and have
no sub-groups; the parent's child link is severed (the source clears the
whole list when it has exactly one element), the group is deleted, the
resulting set is re-validated (`quota.ResolveCrossReferences`) and persisted,
and reconciliation runs for the deleted group with no extra services. -/
def RemoveQuota (st : StateS) (name : String) : OpOut :=
  match AllQuotas st with
  | .error e => ⟨st, some e, []⟩
  | .ok allGrps =>
  match lookupGrp allGrps name with
  | none => ⟨st, some (.groupNotFound name), []⟩
  | some grp =>
    if grp.subGroups.length != 0 then ⟨st, some .groupHasSubGroups, []⟩
    else
      let m0 := grpList allGrps
      let m1 :=
        if grp.parentGroup != "" then
          match List.lookup grp.parentGroup m0 with
          | none => m0
          | some parent =>
            let parent2 :=
              if parent.subGroups.length == 1 then { parent with subGroups := [] }
              else { parent with subGroups := parent.subGroups.filter (fun s => s != name) }
            insertGrp m0 parent2
        else m0
      let m2 := m1.filter (fun p => p.1 != name)
      if !(crossRefsOK m2) then ⟨st, some .inconsistentSet, []⟩
      else
        let st2 := { st with quotas := some m2 }
        let r := ensureSnapServicesForGroup st2 grp m2 []
        ⟨st2, r.1, [r.2]⟩

/-- Options of `UpdateQuota`, after the `QuotaGroupUpdate` struct.  The
source documents `ReplaceSnaps` as making `AddSnaps` replace the existing
snap list instead of appending to it. -/
structure QuotaGroupUpdate where
  addSnaps : List String
  newMemoryLimit : Nat
  replaceSnaps : Bool
  newParentGroup : String
  orphanSubGroup : Bool
deriving DecidableEq, Repr

/-- Tail of `UpdateQuota` shared by its branches: the final values of the
modified groups (pointers in the source, name lookups in the working map
here) are persisted through `patchQuotas` and reconciliation runs for the
updated group with no extra services. -/
def finishUpdate (st : StateS) (w : GroupMap) (modifiedNames : List String)
    (grpName : String) : OpOut :=
  let mods := modifiedNames.filterMap (fun n => List.lookup n w)
  match patchQuotas st mods with
  | .error e => ⟨st, some e, []⟩
  | .ok (st2, all2) =>
    match List.lookup grpName w with
    | none => ⟨st, some (.internalParentMissing "" grpName), []⟩
    | some g =>
      let r := ensureSnapServicesForGroup st2 g all2 []
      ⟨st2, r.1, [r.2]⟩

/-- Memory-limit step of `UpdateQuota`: a non-zero `NewMemoryLimit`
overwrites the group's limit, zero leaves it unchanged. -/
def applyLimit (g : Group) (l : Nat) : Group :=
  if l != 0 then { g with memoryLimit := l } else g

/-- Tail of `UpdateQuota`'s re-parenting branch, after the group has (when
needed) been detached from its original parent: the new parent gains the
child link, the group's parent pointer is rewritten, and the touched groups
are persisted. -/
def adoptFinish (st : StateS) (w1 : GroupMap) (origMods : List String)
    (name newParentGroup : String) : OpOut :=
  match List.lookup newParentGroup w1 with
  | none => ⟨st, some (.internalParentMissing newParentGroup name), []⟩
  | some newParent =>
    let newParent2 := { newParent with subGroups := newParent.subGroups ++ [name] }
    let w2 := insertGrp w1 newParent2
    match List.lookup name w2 with
    | none => ⟨st, some (.internalParentMissing "" name), []⟩
    | some gcur =>
      let w3 := insertGrp w2 { gcur with parentGroup := newParentGroup }
      finishUpdate st w3 ([name] ++ origMods ++ [newParentGroup]) name

/-- Update of a quota group (`UpdateQuota`): gated on availability; the group
must exist; orphaning requires a parent and excludes a new parent; a new
parent must exist; `AddSnaps` is validated and then appended to the existing
snap list (the source never consults `ReplaceSnaps`); a non-zero memory
limit overwrites the old one; re-parenting rewires the old parent, the new
parent and the group in one patch.  In-place pointer mutations of the source
are modelled by updating the working map `w` and re-reading current entry
values before each subsequent mutation. -/
def UpdateQuota (st : StateS) (name : String) (updateOpts : QuotaGroupUpdate) : OpOut :=
  match quotaGroupsAvailable st with
  | some e => ⟨st, some e, []⟩
  | none =>
  match AllQuotas st with
  | .error e => ⟨st, some e, []⟩
  | .ok allGrps =>
  match lookupGrp allGrps name with
  | none => ⟨st, some (.groupNotFound name), []⟩
  | some grp =>
    if updateOpts.orphanSubGroup && grp.parentGroup == "" then
      ⟨st, some .orphanWithoutParent, []⟩
    else if updateOpts.orphanSubGroup && updateOpts.newParentGroup != "" then
      ⟨st, some .orphanAndNewParent, []⟩
    else if updateOpts.newParentGroup != "" &&
        (lookupGrp allGrps updateOpts.newParentGroup).isNone then
      ⟨st, some (.parentNotFound updateOpts.newParentGroup), []⟩
    else match validateSnapForAddingToGroup st updateOpts.addSnaps name allGrps with
    | some e => ⟨st, some e, []⟩
    | none =>
      let m0 := grpList allGrps
      let grp2 :=
        applyLimit { grp with snaps := grp.snaps ++ updateOpts.addSnaps }
          updateOpts.newMemoryLimit
      let w0 := insertGrp m0 grp2
      if updateOpts.orphanSubGroup then
        match List.lookup grp2.parentGroup w0 with
        | none => ⟨st, some (.internalParentMissing grp2.parentGroup name), []⟩
        | some oldParent =>
          let oldParent2 :=
            { oldParent with subGroups := oldParent.subGroups.filter (fun s => s != name) }
          let w1 := insertGrp w0 oldParent2
          match List.lookup name w1 with
          | none => ⟨st, some (.internalParentMissing "" name), []⟩
          | some gcur =>
            let w2 := insertGrp w1 { gcur with parentGroup := "" }
            finishUpdate st w2 [name, oldParent2.name] name
      else if updateOpts.newParentGroup != "" then
        if grp2.parentGroup != "" then
          match List.lookup grp2.parentGroup w0 with
          | none => ⟨st, some (.internalParentMissing grp2.parentGroup name), []⟩
          | some origParent =>
            let origParent2 :=
              { origParent with
                subGroups := origParent.subGroups.filter (fun s => s != name) }
            adoptFinish st (insertGrp w0 origParent2) [origParent2.name] name
              updateOpts.newParentGroup
        else
          adoptFinish st w0 [] name updateOpts.newParentGroup
      else
        finishUpdate st w0 [name] name

/-- Removal of a snap from a group (`RemoveSnapFromQuota`): the group must
exist and the snap must be a member; every occurrence of the snap is dropped
from the snap list, the group is persisted, and reconciliation runs for the
group with the removed snap passed as an explicit extra service. -/
def RemoveSnapFromQuota (st : StateS) (group snapName : String) : OpOut :=
  match AllQuotas st with
  | .error e => ⟨st, some e, []⟩
  | .ok allGrps =>
  match lookupGrp allGrps group with
  | none => ⟨st, some (.groupNotFound group), []⟩
  | some grp =>
    if !(grp.snaps.contains snapName) then
      ⟨st, some (.snapNotInGroup snapName group), []⟩
    else
      let grp2 := { grp with snaps := grp.snaps.filter (fun s => s != snapName) }
      match patchQuotas st [grp2] with
      | .error e => ⟨st, some e, []⟩
      | .ok (st2, all2) =>
        let r := ensureSnapServicesForGroup st2 grp2 all2 [snapName]
        ⟨st2, r.1, [r.2]⟩

/-- State with the availability inputs (feature flag, systemd version)
replaced; used to express that an operation does not consult them. -/
def setAvail (st : StateS) (flag : Bool) (version : Nat) : StateS :=
  { st with featureQuotaGroups := flag, systemdVersion := version }

/-- Kind tag of a modified unit reported by the unit-sync callback
(`collectModifiedUnits` switches on `unitType`). -/
inductive UnitKind where
  | slice
  | service
deriving DecidableEq, Repr

/-- One invocation of the `collectModifiedUnits` callback: the app whose unit
changed, its owning snap (`app.Snap`), the quota group the change is
attributed to, and the unit kind.  The textual unit name and old/new contents
of the callback are not inspected by the source and are omitted. -/
structure UnitEvent where
  appName : String
  appSnap : String
  grpName : String
  kind : UnitKind
deriving DecidableEq, Repr

/-- Modelled from the spec: `grp.SliceFileName()` (package `quota`, not under
src/) is the systemd slice unit name derived from the group name. -/
def sliceFileName (g : String) : String := "snap." ++ g ++ ".slice"

/-- Modelled from the spec: `snap.SortServices` is the external dependency
sorter (spec section 6), returning the given services in dependency-correct
start order; the ordering rule itself is the collaborator's and out of scope
(spec section 1), so it is modelled as the identity permutation. -/
def SortServices (apps : List String) : List String := apps

/-- Externally visible restart-sequencer steps of
`ensureSnapServicesForGroup` after the unit-sync call returns. -/
inductive SysdAction where
  | restartSlice (unit : String)
  | stopUnit (unit : String)
  | removeGroup (group : String)
  | queryDisabled (snapName : String)
  | sortServicesCall (apps : List String)
  | stopServices (apps : List String)
  | startServices (apps disabled : List String)
deriving DecidableEq, Repr

/-- Slice worklist built by the callback: one entry appended per reported
slice modification, in event order, with no deduplication
(`grpsToRestart = append(grpsToRestart, grp)`). -/
def grpsToRestart (events : List UnitEvent) : List String :=
  (events.filter (fun e => e.kind == UnitKind.slice)).map (fun e => e.grpName)

/-- The slice-restart loop: one `systemctl restart` of the group's slice per
worklist entry. -/
def sliceRestartActions (events : List UnitEvent) : List SysdAction :=
  (grpsToRestart events).map (fun g => SysdAction.restartSlice (sliceFileName g))

/-- Apps accumulated for one snap by the callback
(`appsToRestartBySnap[sn] = append(...)`): the apps of that snap's service
events, in event order. -/
def serviceEventsFor (events : List UnitEvent) (sn : String) : List String :=
  (events.filter (fun e => e.kind == UnitKind.service && e.appSnap == sn)).map
    (fun e => e.appName)

/-- First-occurrence deduplication, used to enumerate the keys of the
per-snap worklist map. -/
def dedupKeepFirst : List String → List String
  | [] => []
  | x :: xs => x :: (dedupKeepFirst xs).filter (fun y => !(y == x))

/-- Snaps that had at least one service unit modified. -/
def snapsWithServiceEvents (events : List UnitEvent) : List String :=
  dedupKeepFirst ((events.filter (fun e => e.kind == UnitKind.service)).map
    (fun e => e.appSnap))

/-- The per-snap worklist map built by the callback, as key/value pairs: one
entry per snap with a modified service unit, holding that snap's modified
apps in event order.  The Go map's key iteration order is unspecified; the
model fixes first-occurrence order. -/
def appsToRestartBySnap (events : List UnitEvent) : List (String × List String) :=
  (snapsWithServiceEvents events).map (fun sn => (sn, serviceEventsFor events sn))

/-- Per-snap restart block of the source (lines 127-148 of
quota_control.go): query the disabled services, sort the collected apps
(`snap.SortServices(apps)` — only the apps whose units were modified), stop
the collected apps, then start the sorted list passing the disabled set. -/
def serviceRestartActions (disabledOf : String → List String) (sn : String)
    (apps : List String) : List SysdAction :=
  [SysdAction.queryDisabled sn,
   SysdAction.sortServicesCall apps,
   SysdAction.stopServices apps,
   SysdAction.startServices (SortServices apps) (disabledOf sn)]

/-- Definition following the spec's words, for comparison with
`serviceRestartActions`: the spec states the engine sorts the package's
*full* service set and starts the full sorted set (spec section 4.2 step 6),
while still stopping only the affected services first. -/
def serviceRestartActionsSpec (fullServicesOf disabledOf : String → List String)
    (sn : String) (apps : List String) : List SysdAction :=
  [SysdAction.queryDisabled sn,
   SysdAction.sortServicesCall (fullServicesOf sn),
   SysdAction.stopServices apps,
   SysdAction.startServices (SortServices (fullServicesOf sn)) (disabledOf sn)]

/-- Restart-sequencer trace of one `ensureSnapServicesForGroup` call, given
the callback's event stream: restart every slice in the worklist, tear down
the group's slice if the group is absent from the current set (tombstone
case), then run the per-snap restart blocks. -/
def reconcileActions (disabledOf : String → List String) (grp : Group)
    (allGrps : GroupMap) (events : List UnitEvent) : List SysdAction :=
  sliceRestartActions events ++
  (if (List.lookup grp.name allGrps).isNone then
    [SysdAction.stopUnit (sliceFileName grp.name), SysdAction.removeGroup grp.name]
   else []) ++
  ((appsToRestartBySnap events).map
    (fun p => serviceRestartActions disabledOf p.1 p.2)).flatten

/-- Pairwise-disjoint snap membership of two groups. -/
def groupsDisjoint (g1 g2 : Group) : Bool :=
  g1.snaps.all (fun s => !(g2.snaps.contains s))

/-- Snap exclusivity over a group map (spec section 3 invariant 2): the snap
sets of any two distinct entries are disjoint. -/
def snapExclusive : GroupMap → Bool
  | [] => true
  | p :: rest => rest.all (fun q => groupsDisjoint p.2 q.2) && snapExclusive rest

/-- Keys of the group map are pairwise distinct. -/
def nodupKeys : GroupMap → Bool
  | [] => true
  | p :: rest => !(rest.any (fun q => q.1 == p.1)) && nodupKeys rest

/-- Snap exclusivity of the persisted state (vacuous when no quotas key is
set). -/
def stateExclusive (st : StateS) : Bool :=
  match st.quotas with
  | none => true
  | some m => snapExclusive m

theorem groupsDisjoint_iff {g1 g2 : Group} :
    groupsDisjoint g1 g2 = true ↔ ∀ s ∈ g1.snaps, s ∉ g2.snaps := by
  simp [groupsDisjoint, List.all_eq_true]

theorem groupsDisjoint_symm {g1 g2 : Group} (h : groupsDisjoint g1 g2 = true) :
    groupsDisjoint g2 g1 = true := by
  rw [groupsDisjoint_iff] at h ⊢
  exact fun s hs2 hs1 => h s hs1 hs2

theorem snapExclusive_cons {p : String × Group} {m : GroupMap} :
    snapExclusive (p :: m) = true ↔
      (∀ q ∈ m, groupsDisjoint p.2 q.2 = true) ∧ snapExclusive m = true := by
  simp [snapExclusive, List.all_eq_true, Bool.and_eq_true]

theorem nodupKeys_cons {p : String × Group} {m : GroupMap} :
    nodupKeys (p :: m) = true ↔
      (∀ q ∈ m, (q.1 == p.1) = false) ∧ nodupKeys m = true := by
  show ((!(m.any fun q => q.1 == p.1)) && nodupKeys m) = true ↔ _
  rw [Bool.and_eq_true]
  constructor
  · rintro ⟨h1, h2⟩
    refine ⟨fun q hq => ?_, h2⟩
    cases hqq : (q.1 == p.1) with
    | false => rfl
    | true =>
      rw [List.any_eq_true.mpr ⟨q, hq, hqq⟩] at h1
      simp at h1
  · rintro ⟨h1, h2⟩
    refine ⟨?_, h2⟩
    cases hany : m.any (fun q => q.1 == p.1) with
    | false => rfl
    | true =>
      obtain ⟨x, hx, hxx⟩ := List.any_eq_true.mp hany
      rw [h1 x hx] at hxx
      cases hxx

theorem snapExclusive_disjoint {m : GroupMap} (hm : snapExclusive m = true)
    {k1 k2 : String} {g1 g2 : Group} (h1 : (k1, g1) ∈ m) (h2 : (k2, g2) ∈ m)
    (hne : k1 ≠ k2) : groupsDisjoint g1 g2 = true := by
  induction m with
  | nil => cases h1
  | cons p rest ih =>
    rw [snapExclusive_cons] at hm
    obtain ⟨hall, hrest⟩ := hm
    cases h1 with
    | head =>
      cases h2 with
      | head => exact absurd rfl hne
      | tail _ h2' => exact hall _ h2'
    | tail _ h1' =>
      cases h2 with
      | head => exact groupsDisjoint_symm (hall _ h1')
      | tail _ h2' => exact ih hrest h1' h2'

theorem lookup_mem {m : GroupMap} {k : String} {g : Group}
    (h : List.lookup k m = some g) : (k, g) ∈ m := by
  induction m with
  | nil => cases h
  | cons p rest ih =>
    obtain ⟨a, b⟩ := p
    rw [List.lookup_cons] at h
    cases hk : (k == a) with
    | true =>
      rw [hk] at h
      cases h
      have hka : k = a := by simpa using hk
      exact hka ▸ List.mem_cons_self _ _
    | false =>
      rw [hk] at h
      exact List.mem_cons_of_mem _ (ih h)

theorem mem_lookup {m : GroupMap} (hnd : nodupKeys m = true)
    {k : String} {g : Group} (h : (k, g) ∈ m) : List.lookup k m = some g := by
  induction m with
  | nil => cases h
  | cons p rest ih =>
    obtain ⟨a, b⟩ := p
    rw [nodupKeys_cons] at hnd
    obtain ⟨hno, hrest⟩ := hnd
    rw [List.lookup_cons]
    cases h with
    | head => simp
    | tail _ h' =>
      rw [hno (k, g) h']
      exact ih hrest h'

theorem mem_insertGrp {m : GroupMap} {g : Group} {q : String × Group}
    (h : q ∈ insertGrp m g) : q = (g.name, g) ∨ q ∈ m := by
  induction m with
  | nil => simpa [insertGrp] using h
  | cons p rest ih =>
    unfold insertGrp at h
    by_cases hk : (p.1 == g.name) = true
    · rw [if_pos hk] at h
      cases h with
      | head => exact .inl rfl
      | tail _ h' => exact .inr (List.mem_cons_of_mem _ h')
    · rw [if_neg hk] at h
      cases h with
      | head => exact .inr (List.mem_cons_self _ _)
      | tail _ h' =>
        cases ih h' with
        | inl he => exact .inl he
        | inr hm => exact .inr (List.mem_cons_of_mem _ hm)

theorem nodupKeys_insertGrp {m : GroupMap} {g : Group}
    (h : nodupKeys m = true) : nodupKeys (insertGrp m g) = true := by
  induction m with
  | nil => rfl
  | cons p rest ih =>
    rw [nodupKeys_cons] at h
    obtain ⟨hno, hrest⟩ := h
    unfold insertGrp
    by_cases hk : (p.1 == g.name) = true
    · rw [if_pos hk, nodupKeys_cons]
      refine ⟨fun q hq => ?_, hrest⟩
      have hpg : p.1 = g.name := by simpa using hk
      rw [← hpg]
      exact hno q hq
    · rw [if_neg hk, nodupKeys_cons]
      refine ⟨fun q hq => ?_, ih hrest⟩
      cases mem_insertGrp hq with
      | inl he =>
        subst he
        have hne : p.1 ≠ g.name := by simpa using hk
        rw [beq_eq_false_iff_ne]
        exact fun hgp => hne hgp.symm
      | inr hm => exact hno q hm

theorem snapExclusive_insertGrp {m : GroupMap} {g : Group}
    (hnd : nodupKeys m = true) (hm : snapExclusive m = true)
    (hdisj : ∀ q ∈ m, q.1 = g.name ∨ groupsDisjoint g q.2 = true) :
    snapExclusive (insertGrp m g) = true := by
  induction m with
  | nil => simp [insertGrp, snapExclusive]
  | cons p rest ih =>
    rw [nodupKeys_cons] at hnd
    obtain ⟨hno, hndrest⟩ := hnd
    rw [snapExclusive_cons] at hm
    obtain ⟨hall, hrest⟩ := hm
    unfold insertGrp
    by_cases hk : (p.1 == g.name) = true
    · rw [if_pos hk, snapExclusive_cons]
      refine ⟨fun q hq => ?_, hrest⟩
      cases hdisj q (List.mem_cons_of_mem _ hq) with
      | inl he =>
        exfalso
        have hqp := hno q hq
        have hpg : p.1 = g.name := by simpa using hk
        rw [beq_eq_false_iff_ne] at hqp
        exact hqp (he.trans hpg.symm)
      | inr hd => exact hd
    · rw [if_neg hk, snapExclusive_cons]
      constructor
      · intro q hq
        cases mem_insertGrp hq with
        | inl he =>
          subst he
          cases hdisj p (List.mem_cons_self _ _) with
          | inl he' => exact absurd he' (by simpa using hk)
          | inr hd => exact groupsDisjoint_symm hd
        | inr hmem => exact hall q hmem
      · exact ih hndrest hrest (fun q hq => hdisj q (List.mem_cons_of_mem _ hq))

theorem contains_iff {l : List String} {a : String} : l.contains a = true ↔ a ∈ l := by
  simp

theorem any_fst_linksMap (rest : GroupMap) (k : String) :
    ((linksMap rest).any fun q => q.1 == k) = rest.any fun q => q.1 == k := by
  induction rest with
  | nil => rfl
  | cons p r ih =>
    show ((p.1 == k) || (linksMap r).any fun q => q.1 == k)
        = ((p.1 == k) || r.any fun q => q.1 == k)
    rw [ih]

theorem nodupKeysL_linksMap (m : GroupMap) : nodupKeysL (linksMap m) = nodupKeys m := by
  induction m with
  | nil => rfl
  | cons p rest ih =>
    show (!((linksMap rest).any fun q => q.1 == p.1) && nodupKeysL (linksMap rest))
        = ((!(rest.any fun q => q.1 == p.1)) && nodupKeys rest)
    rw [ih, any_fst_linksMap]

theorem crossRefsOK_parts {m : GroupMap} (h : crossRefsOK m = true) :
    nodupKeys m = true ∧ wellLinked (linksMap m) = true := by
  unfold crossRefsOK crossRefsCore at h
  rw [Bool.and_eq_true, Bool.and_eq_true] at h
  exact ⟨(nodupKeysL_linksMap m) ▸ h.1.1, h.1.2⟩

theorem crossRefsOK_name_eq_key {m : GroupMap} (h : crossRefsOK m = true)
    {k : String} {g : Group} (hm : (k, g) ∈ m) : g.name = k := by
  have hwl := (crossRefsOK_parts h).2
  rw [wellLinked, List.all_eq_true] at hwl
  have hthis := hwl (k, g.links) (List.mem_map_of_mem _ hm)
  rw [Bool.and_eq_true, Bool.and_eq_true] at hthis
  simpa [Group.links] using hthis.1.1

theorem linksMap_insertGrp {m : GroupMap} {g e : Group}
    (hl : List.lookup g.name m = some e) (hlk : e.links = g.links) :
    linksMap (insertGrp m g) = linksMap m := by
  induction m with
  | nil => cases hl
  | cons p rest ih =>
    obtain ⟨a, b⟩ := p
    rw [List.lookup_cons] at hl
    unfold insertGrp
    by_cases hag : a = g.name
    · rw [if_pos (show ((a, b).1 == g.name) = true by simp [hag])]
      rw [show (g.name == a) = true by simp [hag]] at hl
      injection hl with hbe
      show (g.name, g.links) :: linksMap rest = (a, b.links) :: linksMap rest
      rw [hag, hbe, hlk]
    · rw [if_neg (show ¬(((a, b).1 == g.name) = true) by simpa using hag)]
      rw [show (g.name == a) = false from beq_eq_false_iff_ne.mpr (fun h' => hag h'.symm)] at hl
      dsimp only at hl
      show (a, b.links) :: linksMap (insertGrp rest g) = (a, b.links) :: linksMap rest
      rw [ih hl]

theorem crossRefsOK_insert_snapsOnly {m : GroupMap} {g e : Group}
    (hl : List.lookup g.name m = some e) (hlk : e.links = g.links) :
    crossRefsOK (insertGrp m g) = crossRefsOK m := by
  unfold crossRefsOK
  rw [linksMap_insertGrp hl hlk]

theorem allQuotas_ok_inv {st : StateS} {o : Option GroupMap}
    (h : AllQuotas st = .ok o) :
    st.quotas = o ∧ ∀ m, o = some m → crossRefsOK m = true := by
  unfold AllQuotas at h
  cases hq : st.quotas with
  | none =>
    rw [hq] at h
    dsimp only at h
    cases h
    exact ⟨rfl, fun m hm => by cases hm⟩
  | some m =>
    rw [hq] at h
    dsimp only at h
    by_cases hc : crossRefsOK m = true
    · rw [if_pos hc] at h
      cases h
      exact ⟨rfl, fun m' hm' => by cases hm'; exact hc⟩
    · rw [if_neg hc] at h
      cases h

theorem patchQuotas_ok_inv {st : StateS} {grps : List Group} {st2 : StateS} {m : GroupMap}
    (h : patchQuotas st grps = .ok (st2, m)) :
    m = grps.foldl insertGrp (grpList st.quotas) ∧
    st2 = { st with quotas := some m } ∧ crossRefsOK m = true := by
  unfold patchQuotas at h
  by_cases hc : crossRefsOK (grps.foldl insertGrp (grpList st.quotas)) = true
  · rw [if_pos hc] at h
    cases h
    exact ⟨rfl, rfl, hc⟩
  · rw [if_neg hc] at h
    cases h

theorem newGroup_ok_inv {n : String} {l : Nat} {g : Group}
    (h : NewGroup n l = .ok g) : g = ⟨n, "", [], [], l⟩ := by
  unfold NewGroup at h
  by_cases h1 : (n == "") = true
  · rw [if_pos h1] at h; cases h
  · rw [if_neg h1] at h
    by_cases h2 : (l == 0) = true
    · rw [if_pos h2] at h; cases h
    · rw [if_neg h2] at h; cases h; rfl

theorem newSubGroup_ok_inv {parent : Group} {n : String} {l : Nat}
    {child parent2 : Group} (h : NewSubGroup parent n l = .ok (child, parent2)) :
    child = ⟨n, parent.name, [], [], l⟩ ∧
    parent2 = { parent with subGroups := parent.subGroups ++ [n] } := by
  unfold NewSubGroup at h
  cases hg : NewGroup n l with
  | error e => rw [hg] at h; cases h
  | ok g0 =>
    rw [hg] at h
    dsimp only at h
    cases h
    rw [newGroup_ok_inv hg]
    exact ⟨rfl, rfl⟩

theorem validate_none_facts {st : StateS} {snaps : List String} {g : String}
    {allGrps : Option GroupMap}
    (h : validateSnapForAddingToGroup st snaps g allGrps = none) :
    ∀ s ∈ snaps, st.installedSnaps.contains s = true ∧
      ∀ q ∈ grpList allGrps, s ∉ q.2.snaps := by
  induction snaps with
  | nil => intro s hs; cases hs
  | cons a rest ih =>
    unfold validateSnapForAddingToGroup at h
    cases hins : st.installedSnaps.contains a with
    | false => rw [hins] at h; simp at h
    | true =>
      rw [hins] at h
      cases hf : (grpList allGrps).find? (fun q => q.2.snaps.contains a) with
      | some q => rw [hf] at h; cases h
      | none =>
        rw [hf] at h
        intro s hs
        cases hs with
        | head =>
          refine ⟨hins, fun q hq hmem => ?_⟩
          exact List.find?_eq_none.mp hf q hq (contains_iff.mpr hmem)
        | tail _ hs' => exact ih h s hs'

theorem ensure_err_none {st : StateS} {grp : Group} {allGrps : GroupMap}
    {extra : List String}
    (h : ∀ s ∈ grp.snaps ++ extra, st.installedSnaps.contains s = true) :
    (ensureSnapServicesForGroup st grp allGrps extra).1 = none := by
  have hfind : (grp.snaps ++ extra).find? (fun s => !(st.installedSnaps.contains s)) = none :=
    List.find?_eq_none.mpr (fun x hx => by
      have hmem : x ∈ st.installedSnaps := contains_iff.mp (h x hx)
      simp [hmem])
  unfold ensureSnapServicesForGroup
  dsimp only
  rw [hfind]

/-- Every snap of `g` comes either from the snap set `g` already had under
its own name in the base map, or from the validated `fresh` list that only
the group named `freshName` receives. -/
def SnapsFrom (m0 : GroupMap) (freshName : String) (fresh : List String) (g : Group) : Prop :=
  ∀ s ∈ g.snaps, (∃ e, List.lookup g.name m0 = some e ∧ s ∈ e.snaps) ∨
    (g.name = freshName ∧ s ∈ fresh)

/-- Invariant carried by the in-memory working map during a mutation: unique
keys, snap exclusivity, and every entry keyed by its name with snaps from
the base map or the validated fresh list. -/
def AccOK (m0 : GroupMap) (freshName : String) (fresh : List String) (acc : GroupMap) : Prop :=
  nodupKeys acc = true ∧ snapExclusive acc = true ∧
    ∀ q ∈ acc, q.2.name = q.1 ∧ SnapsFrom m0 freshName fresh q.2

theorem snapsFrom_of_eq {m0 : GroupMap} {fn : String} {fr : List String}
    {g h : Group} (hn : h.name = g.name) (hs : h.snaps = g.snaps)
    (hg : SnapsFrom m0 fn fr g) : SnapsFrom m0 fn fr h := by
  intro s hsm
  rw [hs] at hsm
  rw [hn]
  exact hg s hsm

theorem accOK_lookup {m0 : GroupMap} {fn : String} {fr : List String}
    {acc : GroupMap} (hacc : AccOK m0 fn fr acc) {k : String} {g : Group}
    (hl : List.lookup k acc = some g) :
    g.name = k ∧ SnapsFrom m0 fn fr g :=
  hacc.2.2 (k, g) (lookup_mem hl)

theorem accOK_insert {m0 : GroupMap} {fn : String} {fr : List String}
    (hm0ex : snapExclusive m0 = true)
    (hfr : ∀ s ∈ fr, ∀ q ∈ m0, s ∉ q.2.snaps)
    {acc : GroupMap} (hacc : AccOK m0 fn fr acc)
    {g : Group} (hg : SnapsFrom m0 fn fr g) :
    AccOK m0 fn fr (insertGrp acc g) := by
  obtain ⟨hnd, hex, hent⟩ := hacc
  refine ⟨nodupKeys_insertGrp hnd, ?_, ?_⟩
  · apply snapExclusive_insertGrp hnd hex
    intro q hq
    by_cases hname : q.1 = g.name
    · exact .inl hname
    · right
      rw [groupsDisjoint_iff]
      intro s hsg hsq
      obtain ⟨hqname, hqfrom⟩ := hent q hq
      rcases hg s hsg with ⟨e1, he1, hse1⟩ | ⟨hgn, hsf⟩
      · rcases hqfrom s hsq with ⟨e2, he2, hse2⟩ | ⟨hqn, hsf2⟩
        · have hm1 : (g.name, e1) ∈ m0 := lookup_mem he1
          have hm2 : (q.2.name, e2) ∈ m0 := lookup_mem he2
          have hne : g.name ≠ q.2.name := fun he => hname (by rw [← hqname, ← he])
          have hd := snapExclusive_disjoint hm0ex hm1 hm2 hne
          exact (groupsDisjoint_iff.mp hd) s hse1 hse2
        · exact hfr s hsf2 _ (lookup_mem he1) hse1
      · rcases hqfrom s hsq with ⟨e2, he2, hse2⟩ | ⟨hqn, hsf2⟩
        · exact hfr s hsf _ (lookup_mem he2) hse2
        · exact hname (hqname.symm.trans (hqn.trans hgn.symm))
  · intro q hq
    rcases mem_insertGrp hq with rfl | hq'
    · exact ⟨rfl, hg⟩
    · exact hent q hq'

theorem accOK_foldl {m0 : GroupMap} {fn : String} {fr : List String}
    (hm0ex : snapExclusive m0 = true)
    (hfr : ∀ s ∈ fr, ∀ q ∈ m0, s ∉ q.2.snaps)
    (ms : List Group) (hms : ∀ g ∈ ms, SnapsFrom m0 fn fr g)
    {acc : GroupMap} (hacc : AccOK m0 fn fr acc) :
    AccOK m0 fn fr (ms.foldl insertGrp acc) := by
  induction ms generalizing acc with
  | nil => exact hacc
  | cons g gs ih =>
    exact ih (fun x hx => hms x (List.mem_cons_of_mem _ hx))
      (accOK_insert hm0ex hfr hacc (hms g (List.mem_cons_self _ _)))

theorem accOK_base {m0 : GroupMap} {fn : String} {fr : List String}
    (hnd : nodupKeys m0 = true) (hex : snapExclusive m0 = true)
    (hkeys : ∀ q ∈ m0, q.2.name = q.1) : AccOK m0 fn fr m0 := by
  refine ⟨hnd, hex, fun q hq => ⟨hkeys q hq, fun s hs => .inl ⟨q.2, ?_, hs⟩⟩⟩
  rw [hkeys q hq]
  exact mem_lookup hnd hq

/-- Facts about the base map available at the start of every mutation, for a
fresh snap list `fr` that validation has shown to belong to no group. -/
def BaseOK (st : StateS) (m0 : GroupMap) (fr : List String) : Prop :=
  grpList st.quotas = m0 ∧ stateExclusive st = true ∧ nodupKeys m0 = true ∧
  snapExclusive m0 = true ∧ (∀ q ∈ m0, q.2.name = q.1) ∧
  (∀ s ∈ fr, ∀ q ∈ m0, s ∉ q.2.snaps)

theorem baseOK_of {st : StateS} {o : Option GroupMap} {fr : List String}
    (hA : AllQuotas st = .ok o) (hex : stateExclusive st = true)
    (hfr : ∀ s ∈ fr, ∀ q ∈ grpList o, s ∉ q.2.snaps) :
    BaseOK st (grpList o) fr := by
  obtain ⟨hq, hcr⟩ := allQuotas_ok_inv hA
  cases o with
  | none =>
    refine ⟨by rw [hq], hex, rfl, rfl, ?_, ?_⟩
    · intro q hq'
      cases hq'
    · intro s _ q hq'
      cases hq'
  | some m =>
    have hc := hcr m rfl
    have hnd := (crossRefsOK_parts hc).1
    have hexm : snapExclusive m = true := by
      unfold stateExclusive at hex
      rw [hq] at hex
      exact hex
    exact ⟨by rw [hq], hex, hnd, hexm,
      fun q hq' => crossRefsOK_name_eq_key hc hq', hfr⟩

theorem stateExclusive_patch {st : StateS} {m0 : GroupMap} {fn : String}
    {fr : List String} (hbase : BaseOK st m0 fr) {mods : List Group}
    (hmods : ∀ g ∈ mods, SnapsFrom m0 fn fr g) {st2 : StateS} {mm : GroupMap}
    (hp : patchQuotas st mods = .ok (st2, mm)) :
    stateExclusive st2 = true := by
  obtain ⟨hgl, hex0, hnd, hexm, hkeys, hfr⟩ := hbase
  obtain ⟨hm, hst2, _⟩ := patchQuotas_ok_inv hp
  rw [hst2]
  show snapExclusive mm = true
  rw [hm, hgl]
  exact (accOK_foldl hexm hfr mods hmods (accOK_base hnd hexm hkeys)).2.1

theorem finishUpdate_exclusive {st : StateS} {m0 : GroupMap} {fn : String}
    {fr : List String} (hbase : BaseOK st m0 fr) {w : GroupMap}
    (hw : AccOK m0 fn fr w) (names : List String) (gname : String) :
    stateExclusive (finishUpdate st w names gname).state = true := by
  have hmods : ∀ g ∈ names.filterMap (fun n => List.lookup n w), SnapsFrom m0 fn fr g := by
    intro g hg
    obtain ⟨n, _, hlk⟩ := List.mem_filterMap.mp hg
    exact (accOK_lookup hw hlk).2
  show stateExclusive
      ((match patchQuotas st (names.filterMap fun n => List.lookup n w) with
        | .error e => { state := st, err := some e, reconcile := [] }
        | .ok (st2, all2) =>
          match List.lookup gname w with
          | none =>
            { state := st, err := some (.internalParentMissing "" gname), reconcile := [] }
          | some g =>
            { state := st2, err := (ensureSnapServicesForGroup st2 g all2 []).1,
              reconcile := [(ensureSnapServicesForGroup st2 g all2 []).2] } : OpOut)).state = true
  cases hp : patchQuotas st (names.filterMap fun n => List.lookup n w) with
  | error e => exact hbase.2.1
  | ok pair =>
    obtain ⟨st2, all2⟩ := pair
    dsimp only
    cases List.lookup gname w with
    | none => exact hbase.2.1
    | some gg => exact stateExclusive_patch hbase hmods hp

theorem createFinish_exclusive {st : StateS} {m0 : GroupMap} {fr : List String}
    {fn : String} (hbase : BaseOK st m0 fr) {mods : List Group}
    (hmods : ∀ g ∈ mods, SnapsFrom m0 fn fr g) (grp : Group) :
    stateExclusive (createFinish st mods grp).state = true := by
  unfold createFinish
  cases hp : patchQuotas st mods with
  | error e => exact hbase.2.1
  | ok pr =>
    obtain ⟨st2, all2⟩ := pr
    dsimp only
    exact stateExclusive_patch hbase hmods hp

theorem createQuota_exclusive (st : StateS) (n p : String) (snaps : List String)
    (lim : Nat) (hex : stateExclusive st = true) :
    stateExclusive (CreateQuota st n p snaps lim).state = true := by
  unfold CreateQuota
  cases quotaGroupsAvailable st with
  | some e => exact hex
  | none =>
    dsimp only
    cases hA : AllQuotas st with
    | error e => exact hex
    | ok allGrps =>
      dsimp only
      cases hlk : (lookupGrp allGrps n).isSome with
      | true => exact hex
      | false =>
        cases hv : validateSnapForAddingToGroup st snaps n allGrps with
        | some e => exact hex
        | none =>
          dsimp only
          have hfr : ∀ s ∈ snaps, ∀ q ∈ grpList allGrps, s ∉ q.2.snaps :=
            fun s hs => (validate_none_facts hv s hs).2
          have hb := baseOK_of hA hex hfr
          cases hpn : (p != "") with
          | true =>
            cases hpar : lookupGrp allGrps p with
            | none => exact hex
            | some parentGrp =>
              dsimp only
              cases hns : NewSubGroup parentGrp n lim with
              | error e => exact hex
              | ok pair =>
                obtain ⟨child, parent2⟩ := pair
                obtain ⟨hchild, hparent2⟩ := newSubGroup_ok_inv hns
                have hpname : parentGrp.name = p :=
                  hb.2.2.2.2.1 (p, parentGrp) (lookup_mem hpar)
                have hmods : ∀ g ∈ [parent2, { child with snaps := snaps }],
                    SnapsFrom (grpList allGrps) n snaps g := by
                  intro g hg
                  cases hg with
                  | head =>
                    intro s hs
                    rw [hparent2] at hs ⊢
                    refine .inl ⟨parentGrp, ?_, hs⟩
                    show List.lookup parentGrp.name (grpList allGrps) = some parentGrp
                    rw [hpname]
                    exact hpar
                  | tail _ hg' =>
                    cases hg' with
                    | head =>
                      intro s hs
                      rw [hchild] at hs ⊢
                      exact .inr ⟨rfl, hs⟩
                    | tail _ hg'' => cases hg''
                exact createFinish_exclusive hb hmods _
          | false =>
            cases hng : NewGroup n lim with
            | error e => exact hex
            | ok g0 =>
              have hg0 := newGroup_ok_inv hng
              have hmods : ∀ g ∈ [{ g0 with snaps := snaps }],
                  SnapsFrom (grpList allGrps) n snaps g := by
                intro g hg
                cases hg with
                | head =>
                  intro s hs
                  rw [hg0] at hs ⊢
                  exact .inr ⟨rfl, hs⟩
                | tail _ hg' => cases hg'
              exact createFinish_exclusive hb hmods _

theorem snapsFrom_applyLimit {m0 : GroupMap} {fn : String} {fr : List String}
    {g : Group} {l : Nat} (hg : SnapsFrom m0 fn fr g) :
    SnapsFrom m0 fn fr (applyLimit g l) := by
  unfold applyLimit
  split
  · exact snapsFrom_of_eq rfl rfl hg
  · exact hg

theorem adoptFinish_exclusive {st : StateS} {m0 : GroupMap} {fr : List String}
    {fn : String} (hbase : BaseOK st m0 fr) {w1 : GroupMap}
    (hw : AccOK m0 fn fr w1) (origMods : List String) (name newParentGroup : String) :
    stateExclusive (adoptFinish st w1 origMods name newParentGroup).state = true := by
  unfold adoptFinish
  cases hnp : List.lookup newParentGroup w1 with
  | none => exact hbase.2.1
  | some newParent =>
    dsimp only
    have hw2 := accOK_insert hbase.2.2.2.1 hbase.2.2.2.2.2 hw
      (snapsFrom_of_eq (g := newParent)
        (h := { newParent with subGroups := newParent.subGroups ++ [name] })
        rfl rfl (accOK_lookup hw hnp).2)
    cases hgc : List.lookup name
        (insertGrp w1 { newParent with subGroups := newParent.subGroups ++ [name] }) with
    | none => exact hbase.2.1
    | some gcur =>
      dsimp only
      exact finishUpdate_exclusive hbase
        (accOK_insert hbase.2.2.2.1 hbase.2.2.2.2.2 hw2
          (snapsFrom_of_eq (g := gcur) (h := { gcur with parentGroup := newParentGroup })
            rfl rfl (accOK_lookup hw2 hgc).2)) _ _

theorem updateQuota_exclusive (st : StateS) (n : String) (opts : QuotaGroupUpdate)
    (hex : stateExclusive st = true) :
    stateExclusive (UpdateQuota st n opts).state = true := by
  unfold UpdateQuota
  cases quotaGroupsAvailable st with
  | some e => exact hex
  | none =>
    dsimp only
    cases hA : AllQuotas st with
    | error e => exact hex
    | ok allGrps =>
      dsimp only
      cases hgl : lookupGrp allGrps n with
      | none => exact hex
      | some grp =>
        dsimp only
        cases h1 : (opts.orphanSubGroup && grp.parentGroup == "") with
        | true => exact hex
        | false =>
          cases h2 : (opts.orphanSubGroup && opts.newParentGroup != "") with
          | true => exact hex
          | false =>
            cases h3 : (opts.newParentGroup != "" &&
                (lookupGrp allGrps opts.newParentGroup).isNone) with
            | true => exact hex
            | false =>
              cases hv : validateSnapForAddingToGroup st opts.addSnaps n allGrps with
              | some e => exact hex
              | none =>
                dsimp only
                simp only [Bool.false_eq_true, if_false]
                have hfr : ∀ s ∈ opts.addSnaps, ∀ q ∈ grpList allGrps, s ∉ q.2.snaps :=
                  fun s hs => (validate_none_facts hv s hs).2
                have hb := baseOK_of hA hex hfr
                have hmex := hb.2.2.2.1
                have hmfr := hb.2.2.2.2.2
                have hgname : grp.name = n := hb.2.2.2.2.1 (n, grp) (lookup_mem hgl)
                have hsf1 : SnapsFrom (grpList allGrps) n opts.addSnaps
                    { grp with snaps := grp.snaps ++ opts.addSnaps } := by
                  intro s hs
                  rcases List.mem_append.mp hs with hs | hs
                  · refine .inl ⟨grp, ?_, hs⟩
                    show List.lookup grp.name (grpList allGrps) = some grp
                    rw [hgname]
                    exact hgl
                  · exact .inr ⟨hgname, hs⟩
                have hw0 := accOK_insert hmex hmfr
                  (accOK_base hb.2.2.1 hmex hb.2.2.2.2.1)
                  (snapsFrom_applyLimit (l := opts.newMemoryLimit) hsf1)
                split
                · -- orphan branch
                  split
                  · exact hex
                  · rename_i oldParent hop
                    have hwa := accOK_insert hmex hmfr hw0
                      (snapsFrom_of_eq (g := oldParent)
                        (h := { oldParent with
                                subGroups := oldParent.subGroups.filter (fun s => s != n) })
                        rfl rfl (accOK_lookup hw0 hop).2)
                    split
                    · exact hex
                    · rename_i gcur hgc
                      exact finishUpdate_exclusive hb
                        (accOK_insert hmex hmfr hwa
                          (snapsFrom_of_eq (g := gcur) (h := { gcur with parentGroup := "" })
                            rfl rfl (accOK_lookup hwa hgc).2)) _ _
                · split
                  · -- adoption branch
                    split
                    · -- detach from the original parent first
                      split
                      · exact hex
                      · rename_i origParent hop
                        exact adoptFinish_exclusive hb
                          (accOK_insert hmex hmfr hw0
                            (snapsFrom_of_eq (g := origParent)
                              (h := { origParent with
                                      subGroups := origParent.subGroups.filter (fun s => s != n) })
                              rfl rfl (accOK_lookup hw0 hop).2)) _ _ _
                    · exact adoptFinish_exclusive hb hw0 _ _ _
                  · exact finishUpdate_exclusive hb hw0 _ _

/-- Fixture: a leaf group holding one snap. -/
def fxWeb : Group := ⟨"web", "", [], ["svc-a"], 64⟩

/-- Fixture: a parent group with one sub-group. -/
def fxWebParent : Group := ⟨"web", "", ["api"], ["svc-a"], 64⟩

/-- Fixture: a sub-group of `fxWebParent`. -/
def fxApi : Group := ⟨"api", "web", [], ["svc-b"], 32⟩

/-- Fixture: group set with a single leaf group. -/
def fxMapLeaf : GroupMap := [("web", fxWeb)]

/-- Fixture: group set with a parent and its sub-group. -/
def fxMapTree : GroupMap := [("web", fxWebParent), ("api", fxApi)]

/-- Fixture: daemon state holding the single-leaf group set. -/
def fxStLeaf : StateS := ⟨some fxMapLeaf, ["svc-a", "svc-b", "svc-c"], true, 246⟩

/-- Fixture: daemon state holding the parent/child group set. -/
def fxStTree : StateS := ⟨some fxMapTree, ["svc-a", "svc-b", "svc-c"], true, 246⟩

/-- Fixture: daemon state with no `"quotas"` key. -/
def fxStEmpty : StateS := ⟨none, ["svc-a", "svc-b", "svc-c"], true, 246⟩

/-- C1: snap exclusivity is an invariant of the group set — a snap that is
already a member of some group is rejected by the validation both
`CreateQuota` and `UpdateQuota` run before persisting, and starting from any
state satisfying snap exclusivity, the state after any `CreateQuota` or
`UpdateQuota` call (successful or not) still satisfies it. -/
theorem snap_exclusivity_invariant (st : StateS) (n p : String)
    (snaps : List String) (lim : Nat) (opts : QuotaGroupUpdate)
    (hex : stateExclusive st = true) :
    stateExclusive (CreateQuota st n p snaps lim).state = true ∧
    stateExclusive (UpdateQuota st n opts).state = true ∧
    (∀ (m : Option GroupMap) (s : String), s ∈ snaps →
      (∃ q ∈ grpList m, s ∈ q.2.snaps) →
      validateSnapForAddingToGroup st snaps n m ≠ none) :=
  ⟨createQuota_exclusive st n p snaps lim hex,
   updateQuota_exclusive st n opts hex,
   fun _m s hs hin hnone =>
     match hin with
     | ⟨q, hq, hsq⟩ => (validate_none_facts hnone s hs).2 q hq hsq⟩

/-- Witness for C1: creating a second group and appending to an existing one
on a concrete exclusive state. -/
theorem snap_exclusivity_invariant_witness :
    stateExclusive (CreateQuota fxStLeaf "api" "" ["svc-b"] 16).state = true ∧
    stateExclusive (UpdateQuota fxStLeaf "web" ⟨["svc-c"], 0, false, "", false⟩).state = true :=
  ⟨(snap_exclusivity_invariant fxStLeaf "api" "" ["svc-b"] 16
      ⟨["svc-c"], 0, false, "", false⟩ rfl).1,
   (snap_exclusivity_invariant fxStLeaf "web" "" ["svc-b"] 16
      ⟨["svc-c"], 0, false, "", false⟩ rfl).2.1⟩

/-- C2: whenever a precondition of `CreateQuota` fails — the quota feature
is disabled or the service manager too old (`quotaGroupsAvailable`), the
name is already in use, a listed snap is unknown or already grouped
(`validateSnapForAddingToGroup`), or the named parent does not exist — the
call returns an error, the persisted state is exactly what it was, and no
reconciliation is invoked. -/
theorem createQuota_precondition_failure_unchanged (st : StateS)
    (n p : String) (snaps : List String) (lim : Nat)
    (hfail : quotaGroupsAvailable st ≠ none ∨
      ∃ m, AllQuotas st = .ok m ∧
        ((lookupGrp m n).isSome = true ∨
         validateSnapForAddingToGroup st snaps n m ≠ none ∨
         (p ≠ "" ∧ lookupGrp m p = none))) :
    (CreateQuota st n p snaps lim).err ≠ none ∧
    (CreateQuota st n p snaps lim).state = st ∧
    (CreateQuota st n p snaps lim).reconcile = [] := by
  unfold CreateQuota
  cases hqa : quotaGroupsAvailable st with
  | some e => exact ⟨by simp, rfl, rfl⟩
  | none =>
    dsimp only
    cases hA : AllQuotas st with
    | error e => exact ⟨by simp, rfl, rfl⟩
    | ok allGrps =>
      dsimp only
      rcases hfail with hqa' | ⟨m, hAm, hsub⟩
      · exact absurd hqa hqa'
      · have hma : allGrps = m := by
          have hh := hA.symm.trans hAm
          injection hh
        subst hma
        cases hlk : (lookupGrp allGrps n).isSome with
        | true => exact ⟨by simp, rfl, rfl⟩
        | false =>
          cases hv : validateSnapForAddingToGroup st snaps n allGrps with
          | some e => exact ⟨by simp, rfl, rfl⟩
          | none =>
            dsimp only
            rcases hsub with h | h | ⟨hp, hpl⟩
            · rw [hlk] at h
              cases h
            · exact absurd hv h
            · rw [show (p != "") = true by simpa using hp, hpl]
              exact ⟨by simp, rfl, rfl⟩

/-- Witness for C2: creating a group with a snap that is already a member of
an existing group fails and leaves the state untouched. -/
theorem createQuota_precondition_failure_unchanged_witness :
    (CreateQuota fxStLeaf "dup" "" ["svc-a"] 16).err ≠ none ∧
    (CreateQuota fxStLeaf "dup" "" ["svc-a"] 16).state = fxStLeaf ∧
    (CreateQuota fxStLeaf "dup" "" ["svc-a"] 16).reconcile = [] :=
  createQuota_precondition_failure_unchanged fxStLeaf "dup" "" ["svc-a"] 16
    (.inr ⟨some fxMapLeaf, rfl, .inr (.inl (by decide))⟩)

/-- C8: for a group containing snap `s`, `RemoveSnapFromQuota` drops exactly
`s` from the group's snap list (all other members kept, in order), persists
the updated group into the set, and invokes reconciliation for the group
with `s` as an explicit extra service, so `s` is in the reconciled service
set even though it is no longer a member; when `s` is not a member the call
fails without mutating state or reconciling. -/
theorem removeSnapFromQuota_behavior (st : StateS) (gname s : String)
    (allGrps : Option GroupMap) (grp : Group)
    (hA : AllQuotas st = .ok allGrps) (hl : lookupGrp allGrps gname = some grp) :
    (grp.snaps.contains s = true →
      (RemoveSnapFromQuota st gname s).state.quotas =
        some (insertGrp (grpList allGrps)
          { grp with snaps := grp.snaps.filter (fun x => x != s) }) ∧
      (RemoveSnapFromQuota st gname s).reconcile =
        [⟨{ grp with snaps := grp.snaps.filter (fun x => x != s) }, [s],
          grp.snaps.filter (fun x => x != s) ++ [s]⟩] ∧
      s ∈ grp.snaps.filter (fun x => x != s) ++ [s]) ∧
    (grp.snaps.contains s = false →
      (RemoveSnapFromQuota st gname s).err ≠ none ∧
      (RemoveSnapFromQuota st gname s).state = st ∧
      (RemoveSnapFromQuota st gname s).reconcile = []) := by
  obtain ⟨hq, hcr⟩ := allQuotas_ok_inv hA
  cases allGrps with
  | none => simp [lookupGrp, grpList] at hl
  | some m =>
    have hcrOK := hcr m rfl
    have hgname : grp.name = gname := crossRefsOK_name_eq_key hcrOK (lookup_mem hl)
    unfold RemoveSnapFromQuota
    rw [hA]
    dsimp only
    rw [hl]
    dsimp only
    constructor
    · intro hcontains
      rw [hcontains]
      have hlook : List.lookup grp.name m = some grp := by
        rw [hgname]
        exact hl
      have hcrIns : crossRefsOK
          (insertGrp m { grp with snaps := grp.snaps.filter (fun x => x != s) }) = true := by
        rw [crossRefsOK_insert_snapsOnly
          (g := { grp with snaps := grp.snaps.filter (fun x => x != s) }) hlook rfl]
        exact hcrOK
      cases hp : patchQuotas st [{ grp with snaps := grp.snaps.filter (fun x => x != s) }] with
      | error e =>
        exfalso
        unfold patchQuotas at hp
        rw [hq] at hp
        simp only [List.foldl_cons, List.foldl_nil, grpList, Option.getD_some] at hp
        rw [if_pos hcrIns] at hp
        cases hp
      | ok pr =>
        obtain ⟨st2, all2⟩ := pr
        obtain ⟨hall2, hst2, _⟩ := patchQuotas_ok_inv hp
        dsimp only
        rw [hst2, hall2, hq]
        exact ⟨rfl, rfl, by simp⟩
    · intro hnc
      rw [hnc]
      exact ⟨by simp, rfl, rfl⟩

/-- Witness for C8: removing `svc-a` from group `web`. -/
theorem removeSnapFromQuota_behavior_witness :
    (RemoveSnapFromQuota fxStLeaf "web" "svc-a").reconcile =
      [⟨{ fxWeb with snaps := fxWeb.snaps.filter (fun x => x != "svc-a") }, ["svc-a"],
        fxWeb.snaps.filter (fun x => x != "svc-a") ++ ["svc-a"]⟩] ∧
    "svc-a" ∈ fxWeb.snaps.filter (fun x => x != "svc-a") ++ ["svc-a"] :=
  ⟨((removeSnapFromQuota_behavior fxStLeaf "web" "svc-a" (some fxMapLeaf) fxWeb
      rfl rfl).1 rfl).2.1,
   ((removeSnapFromQuota_behavior fxStLeaf "web" "svc-a" (some fxMapLeaf) fxWeb
      rfl rfl).1 rfl).2.2⟩

theorem patchQuotas_setAvail (st : StateS) (b : Bool) (v : Nat) (grps : List Group) :
    patchQuotas (setAvail st b v) grps =
      (patchQuotas st grps).map (fun pr => (setAvail pr.1 b v, pr.2)) := by
  unfold patchQuotas setAvail
  obtain ⟨q, inst, f, sv⟩ := st
  dsimp only
  split
  · rfl
  · rfl

theorem removeQuota_avail_independent (st : StateS) (b : Bool) (v : Nat) (n : String) :
    (RemoveQuota (setAvail st b v) n).err = (RemoveQuota st n).err ∧
    (RemoveQuota (setAvail st b v) n).state.quotas = (RemoveQuota st n).state.quotas ∧
    (RemoveQuota (setAvail st b v) n).reconcile = (RemoveQuota st n).reconcile := by
  unfold RemoveQuota
  rw [show AllQuotas (setAvail st b v) = AllQuotas st from rfl]
  cases AllQuotas st with
  | error e => exact ⟨rfl, rfl, rfl⟩
  | ok allGrps =>
    dsimp only
    cases lookupGrp allGrps n with
    | none => exact ⟨rfl, rfl, rfl⟩
    | some grp =>
      dsimp only
      repeat' split
      all_goals exact ⟨rfl, rfl, rfl⟩

theorem removeSnap_avail_independent (st : StateS) (b : Bool) (v : Nat) (g s : String) :
    (RemoveSnapFromQuota (setAvail st b v) g s).err = (RemoveSnapFromQuota st g s).err ∧
    (RemoveSnapFromQuota (setAvail st b v) g s).state.quotas =
      (RemoveSnapFromQuota st g s).state.quotas ∧
    (RemoveSnapFromQuota (setAvail st b v) g s).reconcile =
      (RemoveSnapFromQuota st g s).reconcile := by
  unfold RemoveSnapFromQuota
  rw [show AllQuotas (setAvail st b v) = AllQuotas st from rfl]
  cases AllQuotas st with
  | error e => exact ⟨rfl, rfl, rfl⟩
  | ok allGrps =>
    dsimp only
    cases lookupGrp allGrps g with
    | none => exact ⟨rfl, rfl, rfl⟩
    | some grp =>
      dsimp only
      split
      · exact ⟨rfl, rfl, rfl⟩
      · rw [patchQuotas_setAvail]
        cases patchQuotas st [{ grp with snaps := grp.snaps.filter (fun x => x != s) }] with
        | error e => exact ⟨rfl, rfl, rfl⟩
        | ok pr =>
          obtain ⟨st2, all2⟩ := pr
          exact ⟨rfl, rfl, rfl⟩

theorem avail_version_lemma (st : StateS) (v : Nat) (hv : v < 205) :
    quotaGroupsAvailable (setAvail st true v) = some (.systemdTooOld v) := by
  unfold quotaGroupsAvailable setAvail
  dsimp only
  simp only [Bool.not_true, Bool.false_eq_true, if_false]
  rw [if_pos hv]

/-- C10: `RemoveQuota` and `RemoveSnapFromQuota` are not gated on the quota
feature flag or the systemd minimum version — their result (error, persisted
quotas, reconciliation calls) is the same whatever those availability inputs
are — while `CreateQuota` and `UpdateQuota` run the availability check and
fail with the feature-disabled error when the flag is off and with the
version error when systemd is older than 205. -/
theorem remove_ops_not_gated_on_availability (st : StateS) (b : Bool) (v : Nat)
    (n g s p : String) (snaps : List String) (lim : Nat) (opts : QuotaGroupUpdate) :
    ((RemoveQuota (setAvail st b v) n).err = (RemoveQuota st n).err ∧
     (RemoveQuota (setAvail st b v) n).state.quotas = (RemoveQuota st n).state.quotas ∧
     (RemoveQuota (setAvail st b v) n).reconcile = (RemoveQuota st n).reconcile) ∧
    ((RemoveSnapFromQuota (setAvail st b v) g s).err = (RemoveSnapFromQuota st g s).err ∧
     (RemoveSnapFromQuota (setAvail st b v) g s).state.quotas =
       (RemoveSnapFromQuota st g s).state.quotas ∧
     (RemoveSnapFromQuota (setAvail st b v) g s).reconcile =
       (RemoveSnapFromQuota st g s).reconcile) ∧
    ((CreateQuota (setAvail st false v) n p snaps lim).err = some Err.featureDisabled ∧
     (CreateQuota (setAvail st false v) n p snaps lim).state = setAvail st false v ∧
     (UpdateQuota (setAvail st false v) n opts).err = some Err.featureDisabled ∧
     (UpdateQuota (setAvail st false v) n opts).state = setAvail st false v) ∧
    (v < 205 →
      (CreateQuota (setAvail st true v) n p snaps lim).err = some (Err.systemdTooOld v) ∧
      (UpdateQuota (setAvail st true v) n opts).err = some (Err.systemdTooOld v)) := by
  refine ⟨removeQuota_avail_independent st b v n,
    removeSnap_avail_independent st b v g s,
    ⟨rfl, rfl, rfl, rfl⟩, fun hv => ⟨?_, ?_⟩⟩
  · unfold CreateQuota
    rw [avail_version_lemma st v hv]
  · unfold UpdateQuota
    rw [avail_version_lemma st v hv]

/-- Witness for C10: with the feature flag off and systemd 204, removing
still behaves identically while creating fails on the version gate. -/
theorem remove_ops_not_gated_on_availability_witness :
    (RemoveQuota (setAvail fxStLeaf false 204) "web").err = (RemoveQuota fxStLeaf "web").err ∧
    (CreateQuota (setAvail fxStLeaf true 204) "api" "" [] 16).err =
      some (Err.systemdTooOld 204) :=
  ⟨(remove_ops_not_gated_on_availability fxStLeaf false 204 "web" "web" "svc-a" ""
      [] 16 ⟨[], 0, false, "", false⟩).1.1,
   ((remove_ops_not_gated_on_availability fxStLeaf false 204 "api" "web" "svc-a" ""
      [] 16 ⟨[], 0, false, "", false⟩).2.2.2 (by decide)).1⟩

/-- C9: for a name not present in the group set, `GetQuota` returns a nil
group with a nil error rather than a not-found error, and `AllQuotas`
returns a nil map with a nil error when the state holds no quotas key. -/
theorem getQuota_missing_nil_no_error (st : StateS) (name : String)
    (m : Option GroupMap) :
    (st.quotas = none → AllQuotas st = .ok none ∧ GetQuota st name = .ok none) ∧
    (AllQuotas st = .ok m → lookupGrp m name = none → GetQuota st name = .ok none) := by
  constructor
  · intro h
    have hA : AllQuotas st = .ok none := by simp [AllQuotas, h]
    exact ⟨hA, by simp [GetQuota, hA, lookupGrp, grpList, List.lookup]⟩
  · intro hA hl
    simp [GetQuota, hA, hl]

/-- Witness for C9 at concrete states: no quotas key at all, and a present
set without the requested name. -/
theorem getQuota_missing_nil_no_error_witness :
    (AllQuotas fxStEmpty = .ok none ∧ GetQuota fxStEmpty "web" = .ok none) ∧
    GetQuota fxStLeaf "ghost" = .ok none :=
  ⟨(getQuota_missing_nil_no_error fxStEmpty "web" none).1 rfl,
   (getQuota_missing_nil_no_error fxStLeaf "ghost" (some fxMapLeaf)).2 rfl rfl⟩

/-- C6: removing a group with a non-empty `SubGroups` list fails with an
error and leaves the state (hence every group and link in it) unchanged,
making no reconciliation call. -/
theorem removeQuota_nonleaf_fails_unchanged (st : StateS) (name : String)
    (allGrps : Option GroupMap) (grp : Group)
    (hA : AllQuotas st = .ok allGrps) (hl : lookupGrp allGrps name = some grp)
    (hsub : grp.subGroups ≠ []) :
    (RemoveQuota st name).err = some Err.groupHasSubGroups ∧
    (RemoveQuota st name).state = st ∧
    (RemoveQuota st name).reconcile = [] := by
  have hlen : (grp.subGroups.length != 0) = true := by
    simp [bne_iff_ne, hsub]
  unfold RemoveQuota
  rw [hA]
  dsimp only
  rw [hl]
  dsimp only
  rw [hlen]
  exact ⟨rfl, rfl, rfl⟩

/-- Witness for C6: removing the parent while its sub-group exists. -/
theorem removeQuota_nonleaf_fails_unchanged_witness :
    (RemoveQuota fxStTree "web").err = some Err.groupHasSubGroups ∧
    (RemoveQuota fxStTree "web").state = fxStTree ∧
    (RemoveQuota fxStTree "web").reconcile = [] :=
  removeQuota_nonleaf_fails_unchanged fxStTree "web" (some fxMapTree) fxWebParent
    rfl rfl (by decide)

/-- C7: `UpdateQuota` with both `OrphanSubGroup` set and a non-empty
`NewParentGroup` always returns an error and leaves the state unchanged,
making no reconciliation call. -/
theorem updateQuota_orphan_conflict_fails_unchanged (st : StateS) (name : String)
    (opts : QuotaGroupUpdate) (h1 : opts.orphanSubGroup = true)
    (h2 : opts.newParentGroup ≠ "") :
    (UpdateQuota st name opts).err.isSome = true ∧
    (UpdateQuota st name opts).state = st ∧
    (UpdateQuota st name opts).reconcile = [] := by
  unfold UpdateQuota
  cases quotaGroupsAvailable st with
  | some e => exact ⟨rfl, rfl, rfl⟩
  | none =>
    dsimp only
    cases AllQuotas st with
    | error e => exact ⟨rfl, rfl, rfl⟩
    | ok allGrps =>
      dsimp only
      cases lookupGrp allGrps name with
      | none => exact ⟨rfl, rfl, rfl⟩
      | some grp =>
        dsimp only
        have hne : (opts.newParentGroup != "") = true := by simpa using h2
        cases hp : (grp.parentGroup == "") with
        | true => rw [h1]; exact ⟨rfl, rfl, rfl⟩
        | false => rw [h1, hne]; exact ⟨rfl, rfl, rfl⟩

/-- Witness for C7: orphaning and re-parenting requested in one call on an
existing sub-group. -/
theorem updateQuota_orphan_conflict_fails_unchanged_witness :
    (UpdateQuota fxStTree "api" ⟨[], 0, false, "web", true⟩).err.isSome = true ∧
    (UpdateQuota fxStTree "api" ⟨[], 0, false, "web", true⟩).state = fxStTree ∧
    (UpdateQuota fxStTree "api" ⟨[], 0, false, "web", true⟩).reconcile = [] :=
  updateQuota_orphan_conflict_fails_unchanged fxStTree "api" ⟨[], 0, false, "web", true⟩
    rfl (by decide)

/-- C3 (code bug): `UpdateQuota` never consults `ReplaceSnaps` — the result
is identical with the flag set or cleared — and with `ReplaceSnaps=true` the
group's snap list after the call is the previous membership with `AddSnaps`
appended, not the `AddSnaps` list alone, contradicting the field's own
documentation in the source. -/
theorem updateQuota_ignores_replaceSnaps_and_appends :
    (∀ (st : StateS) (name : String) (opts : QuotaGroupUpdate),
      UpdateQuota st name { opts with replaceSnaps := true } =
      UpdateQuota st name { opts with replaceSnaps := false }) ∧
    (lookupGrp (UpdateQuota fxStLeaf "web" ⟨["svc-b"], 0, true, "", false⟩).state.quotas
        "web").map Group.snaps = some ["svc-a", "svc-b"] ∧
    (lookupGrp (UpdateQuota fxStLeaf "web" ⟨["svc-b"], 0, true, "", false⟩).state.quotas
        "web").map Group.snaps ≠ some ["svc-b"] := by
  refine ⟨fun st name opts => by cases opts; rfl, by decide, by decide⟩

/-- Counterexample for C5 as stated: when the callback reports two slice
modifications attributed to the same group, the worklist holds the group
twice and the restart loop restarts its slice twice, not at most once. -/
theorem sliceWorklist_not_deduplicated_counterexample :
    grpsToRestart [⟨"app", "sn", "g1", .slice⟩, ⟨"app", "sn", "g1", .slice⟩] = ["g1", "g1"] ∧
    sliceRestartActions [⟨"app", "sn", "g1", .slice⟩, ⟨"app", "sn", "g1", .slice⟩] =
      [.restartSlice (sliceFileName "g1"), .restartSlice (sliceFileName "g1")] ∧
    ¬(List.count "g1"
        (grpsToRestart [⟨"app", "sn", "g1", .slice⟩, ⟨"app", "sn", "g1", .slice⟩]) ≤ 1) :=
  ⟨rfl, rfl, by decide⟩

/-- C5 as amended: the slice worklist is not deduplicated — a group appears
in it once per slice modification reported for it, and the restart loop
issues exactly one slice restart per worklist entry, so a group is restarted
at most once exactly when its slice is reported modified at most once. -/
theorem sliceWorklist_one_restart_per_slice_event (events : List UnitEvent) (g : String) :
    List.count g (grpsToRestart events) =
      (events.filter (fun e => e.kind == UnitKind.slice && e.grpName == g)).length ∧
    sliceRestartActions events =
      (grpsToRestart events).map (fun x => SysdAction.restartSlice (sliceFileName x)) := by
  refine ⟨?_, rfl⟩
  unfold grpsToRestart
  induction events with
  | nil => rfl
  | cons e es ih =>
    cases hk : (e.kind == UnitKind.slice) with
    | false => simpa [List.filter_cons, hk] using ih
    | true =>
      cases hg : (e.grpName == g) with
      | false => simp_all [List.filter_cons, hk, hg, List.count_cons]
      | true => simp_all [List.filter_cons, hk, hg, List.count_cons]

/-- Counterexample for C4 as stated: with snap `sn` owning services
`a` and `b` but only `a`'s unit modified, the per-snap restart block sorts
and starts only `a`; it differs from the spec-following block built over the
full service set, and `b` is never passed to the starter. -/
theorem restart_full_service_set_counterexample :
    serviceRestartActions (fun _ => []) "sn"
        (serviceEventsFor [⟨"a", "sn", "g", .service⟩] "sn") ≠
      serviceRestartActionsSpec (fun _ => ["a", "b"]) (fun _ => []) "sn"
        (serviceEventsFor [⟨"a", "sn", "g", .service⟩] "sn") ∧
    (reconcileActions (fun _ => []) fxWeb fxMapLeaf [⟨"a", "sn", "g", .service⟩]).all
      (fun act => match act with
        | SysdAction.startServices l _ => !(l.contains "b")
        | _ => true) = true :=
  ⟨by decide, by decide⟩

/-- C4 as amended: for every snap with at least one modified service unit,
the engine runs one contiguous block that queries the disabled services,
topologically sorts exactly the collected modified services of that snap
(not the full service set), stops those modified services first, and then
starts the sorted modified set passing the disabled-service list to the
starter. -/
theorem restart_block_uses_modified_services (disabledOf : String → List String)
    (events : List UnitEvent) (grp : Group) (allGrps : GroupMap)
    (sn : String) (apps : List String)
    (h : (sn, apps) ∈ appsToRestartBySnap events) :
    apps = serviceEventsFor events sn ∧
    ∃ pre post,
      reconcileActions disabledOf grp allGrps events =
        pre ++ [SysdAction.queryDisabled sn, SysdAction.sortServicesCall apps,
                SysdAction.stopServices apps,
                SysdAction.startServices (SortServices apps) (disabledOf sn)] ++ post := by
  obtain ⟨x, hx, heq⟩ := List.mem_map.mp h
  rw [Prod.mk.injEq] at heq
  obtain ⟨h1, h2⟩ := heq
  subst h1
  refine ⟨h2.symm, ?_⟩
  obtain ⟨s, t, hst⟩ := List.append_of_mem hx
  refine ⟨sliceRestartActions events ++
      (if (List.lookup grp.name allGrps).isNone then
        [SysdAction.stopUnit (sliceFileName grp.name), SysdAction.removeGroup grp.name]
       else []) ++
      ((s.map (fun z => (z, serviceEventsFor events z))).map
        (fun p => serviceRestartActions disabledOf p.1 p.2)).flatten,
    ((t.map (fun z => (z, serviceEventsFor events z))).map
        (fun p => serviceRestartActions disabledOf p.1 p.2)).flatten, ?_⟩
  unfold reconcileActions appsToRestartBySnap
  rw [hst, ← h2]
  simp [List.map_append, List.flatten_append, List.flatten_cons, List.append_assoc,
    serviceRestartActions, SortServices]

/-- Witness for C4's amended theorem: one modified service of snap `sn`. -/
theorem restart_block_uses_modified_services_witness :
    ["a"] = serviceEventsFor [⟨"a", "sn", "g", .service⟩] "sn" ∧
    ∃ pre post,
      reconcileActions (fun _ => []) fxWeb fxMapLeaf [⟨"a", "sn", "g", .service⟩] =
        pre ++ [SysdAction.queryDisabled "sn", SysdAction.sortServicesCall ["a"],
                SysdAction.stopServices ["a"],
                SysdAction.startServices (SortServices ["a"]) ((fun _ => ([] : List String)) "sn")] ++ post :=
  restart_block_uses_modified_services (fun _ => []) [⟨"a", "sn", "g", .service⟩]
    fxWeb fxMapLeaf "sn" ["a"] (by decide)

end Snapd
